import Mathlib

/-!
Verification development for the CG DB-Writer (DB_MQTT repository).

Shallow embedding conventions:
* Python floats, `Decimal` values and time differences (seconds) are modelled
  as rationals (`ℚ`); Python `int` is `ℤ`; Python `None` is `Option.none`.
* `datetime` values are modelled by their timeline coordinate in seconds
  (a rational), so `(now - last).total_seconds()` becomes plain subtraction.
* `_haversine_m` is a transcendental float computation
  (`sin`/`cos`/`atan2` over machine floats); the filter logic never inspects
  its value except through order comparisons, so it is modelled as an
  explicit function parameter `haversine_m : ℚ → ℚ → ℚ → ℚ → ℚ` of the
  definitions that call it.  Concrete instantiations used in witnesses and
  counterexamples pick values the real haversine can take (in particular
  `_haversine_m lat lon lat lon = 0` for identical coordinates).
-/

namespace DBMqtt

/-! ## src/history_policy.py -/

/-- Embeds `_RegParams` (src/history_policy.py): effective per-register
parameters after `resolve_params`. -/
structure RegParams where
  tolerance : Option ℚ
  min_interval_sec : ℤ
  heartbeat_sec : ℤ
  store_history : Bool
  value_kind : String
deriving DecidableEq, Repr

/-- Embeds `HistoryDecision` (src/history_policy.py). -/
structure HistoryDecision where
  write : Bool
  write_reason : String
deriving DecidableEq, Repr

/-- Embeds the numeric-tolerance block of `should_write_history`
(src/history_policy.py lines 116-127): executed only when the raw/text/reason
comparison left `changed = False`.  `new_value`/`prev_value` arrive as
`Decimal | None`; `float(...)` never fails on them, so the `except` arm is
dead for the shapes the handler passes in. -/
def numeric_changed (tolerance : Option ℚ) (new_value prev_value : Option ℚ) : Bool :=
  match tolerance with
  | none => false
  | some tol =>
    match new_value, prev_value with
    | some nv, some pv => decide (|nv - pv| > tol)
    | none, none => false
    | _, _ => true

/-- Embeds the `changed` computation of `should_write_history`
(src/history_policy.py lines 108-127): three inequality checks, then the
tolerance block guarded by `not changed`. -/
def code_changed (params : RegParams) (new_value : Option ℚ) (new_raw : Option ℤ)
    (new_text new_reason : Option String) (prev_value : Option ℚ) (prev_raw : Option ℤ)
    (prev_text prev_reason : Option String) : Bool :=
  let changed0 := decide (new_raw ≠ prev_raw) || decide (new_text ≠ prev_text)
    || decide (new_reason ≠ prev_reason)
  changed0 || (!changed0 && numeric_changed params.tolerance new_value prev_value)

/-- Embeds `should_write_history` (src/history_policy.py lines 80-136). -/
def should_write_history (params : RegParams) (new_value : Option ℚ) (new_raw : Option ℤ)
    (new_text new_reason : Option String) (prev_value : Option ℚ) (prev_raw : Option ℤ)
    (prev_text prev_reason : Option String) (last_history_ts : Option ℚ) (now : ℚ) :
    HistoryDecision :=
  if params.store_history = false then ⟨false, ""⟩
  else
    let elapsed : Option ℚ :=
      match last_history_ts with
      | none => none
      | some t => some (now - t)
    if (match elapsed with
        | some e => decide (e < (params.min_interval_sec : ℚ))
        | none => false) then ⟨false, ""⟩
    else if code_changed params new_value new_raw new_text new_reason
        prev_value prev_raw prev_text prev_reason then ⟨true, "change"⟩
    else if (match elapsed with
        | none => true
        | some e => decide (e ≥ (params.heartbeat_sec : ℚ))) then ⟨true, "heartbeat"⟩
    else ⟨false, ""⟩

/-- Modelled from the spec: the change predicate of §4.3 — "*changed* iff any
of {raw, text, reason} differs from previous, OR (tolerance non-null AND both
numeric values present AND `|new−prev| > tolerance`), OR (tolerance non-null
AND exactly one of {new, prev} is null)". -/
def spec_changed (params : RegParams) (new_value : Option ℚ) (new_raw : Option ℤ)
    (new_text new_reason : Option String) (prev_value : Option ℚ) (prev_raw : Option ℤ)
    (prev_text prev_reason : Option String) : Bool :=
  decide (new_raw ≠ prev_raw) || decide (new_text ≠ prev_text)
    || decide (new_reason ≠ prev_reason)
    || (match params.tolerance, new_value, prev_value with
        | some tol, some nv, some pv => decide (|nv - pv| > tol)
        | _, _, _ => false)
    || (match params.tolerance with
        | none => false
        | some _ =>
          match new_value, prev_value with
          | some _, none => true
          | none, some _ => true
          | _, _ => false)

/-- Modelled from the spec: the decision table of §4.3, clauses read in order
(store_history gate, min-interval gate, change rule, heartbeat rule, default). -/
def spec_history_decision (params : RegParams) (new_value : Option ℚ) (new_raw : Option ℤ)
    (new_text new_reason : Option String) (prev_value : Option ℚ) (prev_raw : Option ℤ)
    (prev_text prev_reason : Option String) (last_history_ts : Option ℚ) (now : ℚ) :
    HistoryDecision :=
  if params.store_history = false then ⟨false, ""⟩
  else
    let elapsed : Option ℚ :=
      match last_history_ts with
      | none => none
      | some t => some (now - t)
    if (match elapsed with
        | some e => decide (e < (params.min_interval_sec : ℚ))
        | none => false) then ⟨false, ""⟩
    else if spec_changed params new_value new_raw new_text new_reason
        prev_value prev_raw prev_text prev_reason then ⟨true, "change"⟩
    else if (match elapsed with
        | none => true
        | some e => decide (e ≥ (params.heartbeat_sec : ℚ))) then ⟨true, "heartbeat"⟩
    else ⟨false, ""⟩

theorem code_changed_eq_spec_changed (params : RegParams) (new_value : Option ℚ)
    (new_raw : Option ℤ) (new_text new_reason : Option String) (prev_value : Option ℚ)
    (prev_raw : Option ℤ) (prev_text prev_reason : Option String) :
    code_changed params new_value new_raw new_text new_reason
        prev_value prev_raw prev_text prev_reason
      = spec_changed params new_value new_raw new_text new_reason
        prev_value prev_raw prev_text prev_reason := by
  unfold code_changed spec_changed numeric_changed
  rcases params.tolerance with _ | tol <;>
    rcases new_value with _ | nv <;>
    rcases prev_value with _ | pv <;>
    cases decide (new_raw ≠ prev_raw) <;>
    cases decide (new_text ≠ prev_text) <;>
    cases decide (new_reason ≠ prev_reason) <;>
    simp

/-- C1: the history-admission decision function, given resolved parameters,
the new sample, the previous latest_state row, the last history timestamp and
the current time, returns exactly the spec's decision (§4.3 decision table),
for every input of these shapes. -/
theorem C1_should_write_history_matches_spec (params : RegParams) (new_value : Option ℚ)
    (new_raw : Option ℤ) (new_text new_reason : Option String) (prev_value : Option ℚ)
    (prev_raw : Option ℤ) (prev_text prev_reason : Option String)
    (last_history_ts : Option ℚ) (now : ℚ) :
    should_write_history params new_value new_raw new_text new_reason
        prev_value prev_raw prev_text prev_reason last_history_ts now
      = spec_history_decision params new_value new_raw new_text new_reason
        prev_value prev_raw prev_text prev_reason last_history_ts now := by
  unfold should_write_history spec_history_decision
  rw [code_changed_eq_spec_changed]

/-! ## src/handlers.py — per-key history trace (`_last_history_ts` cache) -/

/-- One register sample for a fixed key `(router_sn, equip_type, panel_id, addr)`,
as `_process_register_batched` (src/handlers.py lines 358-394) feeds it to
`should_write_history`: new values, previous `latest_state` row values, and
the message time `now`. -/
structure HistorySample where
  now : ℚ
  new_value : Option ℚ
  new_raw : Option ℤ
  new_text : Option String
  new_reason : Option String
  prev_value : Option ℚ
  prev_raw : Option ℤ
  prev_text : Option String
  prev_reason : Option String
deriving DecidableEq, Repr

/-- Embeds one pass of `_process_register_batched` through the history
decision for a fixed key: the decision's `write` flag, and the updated
`_last_history_ts[key]` cache (set to `now` exactly when a row is staged,
src/handlers.py line 394). -/
def history_step (params : RegParams) (cache : Option ℚ) (s : HistorySample) :
    Bool × Option ℚ :=
  ((should_write_history params s.new_value s.new_raw s.new_text s.new_reason
      s.prev_value s.prev_raw s.prev_text s.prev_reason cache s.now).write,
   if (should_write_history params s.new_value s.new_raw s.new_text s.new_reason
      s.prev_value s.prev_raw s.prev_text s.prev_reason cache s.now).write
   then some s.now else cache)

/-- The times of the history rows written for one key along a trace of
samples, threading the `_last_history_ts` cache. -/
def write_times (params : RegParams) (cache : Option ℚ) :
    List HistorySample → List ℚ
  | [] => []
  | s :: rest =>
    if (history_step params cache s).1 then
      s.now :: write_times params (history_step params cache s).2 rest
    else
      write_times params (history_step params cache s).2 rest

theorem history_write_not_early (params : RegParams) (t : ℚ) (s : HistorySample)
    (h : (history_step params (some t) s).1 = true) :
    (params.min_interval_sec : ℚ) ≤ s.now - t := by
  by_contra hge
  push_neg at hge
  unfold history_step should_write_history at h
  rcases hst : params.store_history with _ | _
  · simp [hst] at h
  · simp [hst, hge] at h

theorem history_step_cache_of_not_write (params : RegParams) (cache : Option ℚ)
    (s : HistorySample) (h : (history_step params cache s).1 = false) :
    (history_step params cache s).2 = cache := by
  unfold history_step at h ⊢
  simp only at h
  simp [h]

theorem history_step_cache_of_write (params : RegParams) (cache : Option ℚ)
    (s : HistorySample) (h : (history_step params cache s).1 = true) :
    (history_step params cache s).2 = some s.now := by
  unfold history_step at h ⊢
  simp only at h
  simp [h]

theorem write_times_head_ge (params : RegParams) :
    ∀ (samples : List HistorySample) (t u : ℚ),
      (write_times params (some t) samples).head? = some u →
      (params.min_interval_sec : ℚ) ≤ u - t := by
  intro samples
  induction samples with
  | nil => intro t u h; simp [write_times] at h
  | cons s rest ih =>
    intro t u h
    rcases hw : (history_step params (some t) s).1 with _ | _
    · rw [write_times, if_neg (by simp [hw]),
        history_step_cache_of_not_write params _ s hw] at h
      exact ih t u h
    · rw [write_times, if_pos (by simp [hw])] at h
      simp only [List.head?_cons, Option.some.injEq] at h
      subst h
      exact history_write_not_early params t s hw

theorem write_times_chain (params : RegParams) :
    ∀ (samples : List HistorySample) (cache : Option ℚ),
      List.Chain' (fun a b => (params.min_interval_sec : ℚ) ≤ b - a)
        (write_times params cache samples) := by
  intro samples
  induction samples with
  | nil => intro cache; simp [write_times]
  | cons s rest ih =>
    intro cache
    rcases hw : (history_step params cache s).1 with _ | _
    · rw [write_times, if_neg (by simp [hw])]
      exact ih _
    · rw [write_times, if_pos (by simp [hw])]
      rw [List.chain'_cons']
      refine ⟨?_, ih _⟩
      intro u hu
      rw [history_step_cache_of_write params cache s hw] at hu
      exact write_times_head_ge params rest s.now u hu

/-- C5: for one register key within a single run, after a write records the
current time in the last-history-timestamp cache, every subsequent sample
with known elapsed time below min_interval_sec is not written; hence any two
consecutive history write times in a trace are separated by at least
min_interval_sec. -/
theorem C5_min_interval_separation :
    (∀ (params : RegParams) (t : ℚ) (s : HistorySample),
        s.now - t < (params.min_interval_sec : ℚ) →
        (history_step params (some t) s).1 = false)
    ∧ (∀ (params : RegParams) (cache : Option ℚ) (samples : List HistorySample),
        List.Chain' (fun a b => (params.min_interval_sec : ℚ) ≤ b - a)
          (write_times params cache samples)) := by
  constructor
  · intro params t s hlt
    rcases hw : (history_step params (some t) s).1 with _ | _
    · rfl
    · exact absurd (history_write_not_early params t s hw) (not_le.mpr hlt)
  · intro params cache samples
    exact write_times_chain params samples cache

/-- Witness for C5 at a concrete input: min_interval_sec = 10, a write
recorded at t = 0, a changed sample arriving at t = 3 is suppressed. -/
theorem C5_min_interval_separation_witness :
    (history_step ⟨some (1/2), 10, 900, true, "analog"⟩ (some 0)
        ⟨3, some 5, some 5, none, none, some 7, some 7, none, none⟩).1 = false :=
  C5_min_interval_separation.1 ⟨some (1/2), 10, 900, true, "analog"⟩ 0
    ⟨3, some 5, some 5, none, none, some 7, some 7, none, none⟩ (by norm_num)

/-! ## src/gps_filter.py -/

/-- Embeds `GpsPoint` (src/gps_filter.py). -/
structure GpsPoint where
  lat : ℚ
  lon : ℚ
  satellites : Option ℤ
  fix_status : Option ℤ
  gps_time : Option ℚ
  received_at : ℚ
deriving DecidableEq, Repr

/-- Embeds `GpsFilterCfg` (src/config.py lines 85-92). -/
structure GpsFilterCfg where
  sats_min : ℤ
  fix_min : ℤ
  deadband_m : ℚ
  max_jump_m : ℚ
  max_speed_kmh : ℚ
  confirm_points : ℤ
  confirm_radius_m : ℚ
deriving DecidableEq, Repr

/-- The mutable state of a `GpsFilter` instance: `_last_accepted` and the
`_ConfirmBuffer` point list. -/
structure GpsFilterState where
  last_accepted : Option GpsPoint
  confirm : List GpsPoint
deriving DecidableEq, Repr

/-- Embeds `GpsVerdict` (src/gps_filter.py). -/
structure GpsVerdict where
  accepted : Bool
  reject_reason : Option String
deriving DecidableEq, Repr

/-- The distance abstraction: `_haversine_m lat1 lon1 lat2 lon2` in meters.
See the header note: the float trigonometry is modelled as a parameter. -/
abbrev HaversineFn : Type := ℚ → ℚ → ℚ → ℚ → ℚ

/-- The quality-gate test `pt.satellites is not None and pt.satellites < cfg.sats_min`
(src/gps_filter.py line 75). -/
def sat_low (cfg : GpsFilterCfg) (pt : GpsPoint) : Bool :=
  match pt.satellites with
  | some s => decide (s < cfg.sats_min)
  | none => false

/-- The quality-gate test `pt.fix_status is not None and pt.fix_status < cfg.fix_min`
(src/gps_filter.py line 78). -/
def fix_bad (cfg : GpsFilterCfg) (pt : GpsPoint) : Bool :=
  match pt.fix_status with
  | some f => decide (f < cfg.fix_min)
  | none => false

/-- Embeds `GpsFilter._try_confirm` (src/gps_filter.py lines 123-149),
returning the verdict together with the filter state after the call.  The
Python `buf.append` / `_accept` mutations become the returned state. -/
def try_confirm (cfg : GpsFilterCfg) (haversine_m : HaversineFn)
    (st : GpsFilterState) (pt : GpsPoint) (reason : String) :
    GpsVerdict × GpsFilterState :=
  match st.confirm with
  | [] =>
    if ((([pt] : List GpsPoint).length : ℤ) ≥ cfg.confirm_points) then
      (⟨true, none⟩, ⟨some pt, []⟩)
    else
      (⟨false, some reason⟩, ⟨st.last_accepted, [pt]⟩)
  | ref :: rest =>
    if haversine_m ref.lat ref.lon pt.lat pt.lon > cfg.confirm_radius_m then
      (⟨false, some reason⟩, ⟨st.last_accepted, [pt]⟩)
    else
      if ((((ref :: rest) ++ [pt]).length : ℤ) ≥ cfg.confirm_points) then
        (⟨true, none⟩, ⟨some pt, []⟩)
      else
        (⟨false, some reason⟩, ⟨st.last_accepted, (ref :: rest) ++ [pt]⟩)

/-- Embeds `GpsFilter.check` (src/gps_filter.py lines 71-115), returning the
verdict together with the filter state after the call. -/
def check (cfg : GpsFilterCfg) (haversine_m : HaversineFn)
    (st : GpsFilterState) (pt : GpsPoint) : GpsVerdict × GpsFilterState :=
  if sat_low cfg pt then
    (⟨false, some "low_sats"⟩, ⟨st.last_accepted, []⟩)
  else if fix_bad cfg pt then
    (⟨false, some "bad_fix"⟩, ⟨st.last_accepted, []⟩)
  else
    match st.last_accepted with
    | none => (⟨true, none⟩, ⟨some pt, []⟩)
    | some la =>
      let dist := haversine_m la.lat la.lon pt.lat pt.lon
      if dist < cfg.deadband_m then
        (⟨true, none⟩, ⟨st.last_accepted, []⟩)
      else
        let dt_sec0 := pt.received_at - la.received_at
        let dt_sec := if dt_sec0 ≤ 0 then 1 else dt_sec0
        if dist > cfg.max_jump_m then
          try_confirm cfg haversine_m st pt "jump_distance"
        else
          let speed_kmh := dist / dt_sec * (36 / 10)
          if speed_kmh > cfg.max_speed_kmh then
            try_confirm cfg haversine_m st pt "jump_speed"
          else
            (⟨true, none⟩, ⟨some pt, []⟩)

/-- Runs `check` over a list of points, collecting the verdicts and threading
the filter state (the per-router `GpsFilter` instance across calls). -/
def run_filter (cfg : GpsFilterCfg) (haversine_m : HaversineFn) :
    GpsFilterState → List GpsPoint → List GpsVerdict × GpsFilterState
  | st, [] => ([], st)
  | st, p :: ps =>
    let vs := check cfg haversine_m st p
    let rest := run_filter cfg haversine_m vs.2 ps
    (vs.1 :: rest.1, rest.2)

theorem check_low_sats (cfg : GpsFilterCfg) (haversine_m : HaversineFn)
    (st : GpsFilterState) (pt : GpsPoint) (s : ℤ)
    (hsat : pt.satellites = some s) (hlt : s < cfg.sats_min) :
    check cfg haversine_m st pt
      = (⟨false, some "low_sats"⟩, ⟨st.last_accepted, []⟩) := by
  unfold check
  have h : sat_low cfg pt = true := by simp [sat_low, hsat, hlt]
  rw [if_pos h]

/-- Helper: `run_filter` unfolded one step. -/
theorem run_filter_cons (cfg : GpsFilterCfg) (haversine_m : HaversineFn)
    (st : GpsFilterState) (p : GpsPoint) (ps : List GpsPoint) :
    run_filter cfg haversine_m st (p :: ps)
      = ((check cfg haversine_m st p).1
           :: (run_filter cfg haversine_m (check cfg haversine_m st p).2 ps).1,
         (run_filter cfg haversine_m (check cfg haversine_m st p).2 ps).2) := rfl

/-- Helper: the outcome of `_try_confirm` is either acceptance of the point
(with the buffer cleared) or a rejection that keeps `_last_accepted`. -/
theorem try_confirm_result (cfg : GpsFilterCfg) (haversine_m : HaversineFn)
    (st : GpsFilterState) (pt : GpsPoint) (reason : String) :
    try_confirm cfg haversine_m st pt reason = (⟨true, none⟩, ⟨some pt, []⟩)
    ∨ ((try_confirm cfg haversine_m st pt reason).1.accepted = false
        ∧ (try_confirm cfg haversine_m st pt reason).2.last_accepted
            = st.last_accepted) := by
  unfold try_confirm
  rcases hbuf : st.confirm with _ | ⟨ref, rest⟩ <;> simp only [hbuf] <;>
    split_ifs <;> simp

/-- Helper: the outcome of `check` is one of five shapes: the two quality
rejections, the bootstrap/normal acceptance, the deadband acceptance, or
whatever `_try_confirm` returns. -/
theorem check_result (cfg : GpsFilterCfg) (haversine_m : HaversineFn)
    (st : GpsFilterState) (pt : GpsPoint) :
    check cfg haversine_m st pt = (⟨false, some "low_sats"⟩, ⟨st.last_accepted, []⟩)
    ∨ check cfg haversine_m st pt = (⟨false, some "bad_fix"⟩, ⟨st.last_accepted, []⟩)
    ∨ check cfg haversine_m st pt = (⟨true, none⟩, ⟨some pt, []⟩)
    ∨ check cfg haversine_m st pt = (⟨true, none⟩, ⟨st.last_accepted, []⟩)
    ∨ (∃ reason, check cfg haversine_m st pt
          = try_confirm cfg haversine_m st pt reason) := by
  unfold check
  rcases hla : st.last_accepted with _ | la <;> simp only [hla] <;> split_ifs <;>
    simp [hla]

/-- C7 (amended): a point whose satellites field is present and below
sats_min is rejected with reason low_sats, last_accepted is untouched, and
the confirm buffer is cleared; consequently a whole sequence of such points
yields only low_sats rejections, never changes last_accepted, and leaves the
confirm buffer empty (unchanged only when it was already empty). -/
theorem C7_low_sats_rejection (cfg : GpsFilterCfg) (haversine_m : HaversineFn) :
    (∀ (st : GpsFilterState) (pt : GpsPoint) (s : ℤ),
        pt.satellites = some s → s < cfg.sats_min →
        check cfg haversine_m st pt
          = (⟨false, some "low_sats"⟩, ⟨st.last_accepted, []⟩))
    ∧ (∀ (st : GpsFilterState) (pts : List GpsPoint),
        (∀ p ∈ pts, ∃ s, p.satellites = some s ∧ s < cfg.sats_min) →
        (run_filter cfg haversine_m st pts).1
            = pts.map (fun _ => ⟨false, some "low_sats"⟩)
          ∧ (run_filter cfg haversine_m st pts).2.last_accepted = st.last_accepted
          ∧ (pts ≠ [] → (run_filter cfg haversine_m st pts).2.confirm = [])) := by
  constructor
  · intro st pt s hsat hlt
    exact check_low_sats cfg haversine_m st pt s hsat hlt
  · intro st pts
    induction pts generalizing st with
    | nil => intro _; simp [run_filter]
    | cons p rest ih =>
      intro hq
      obtain ⟨s, hsat, hlt⟩ := hq p (by simp)
      have hstep := check_low_sats cfg haversine_m st p s hsat hlt
      have hrest := ih ⟨st.last_accepted, []⟩ (fun q hqmem => hq q (by simp [hqmem]))
      rcases hrest with ⟨h1, h2, h3⟩
      refine ⟨?_, ?_, ?_⟩
      · simp [run_filter, hstep, h1]
      · simp [run_filter, hstep, h2]
      · intro _
        rw [run_filter_cons, hstep]
        rcases hrest2 : rest with _ | ⟨r, rs⟩ <;> subst hrest2
        · simp [run_filter]
        · exact h3 (by simp)

/-- Witness for C7 at a concrete input: default config, one low-sats point
(2 satellites < 4) against a bootstrapped filter. -/
theorem C7_low_sats_rejection_witness :
    check ⟨4, 1, 30, 500, 120, 3, 50⟩ (fun _ _ _ _ => 0)
        ⟨some ⟨0, 0, some 8, some 1, none, 0⟩, []⟩ ⟨0, 0, some 2, some 1, none, 10⟩
      = (⟨false, some "low_sats"⟩, ⟨some ⟨0, 0, some 8, some 1, none, 0⟩, []⟩) :=
  (C7_low_sats_rejection ⟨4, 1, 30, 500, 120, 3, 50⟩ (fun _ _ _ _ => 0)).1
    ⟨some ⟨0, 0, some 8, some 1, none, 0⟩, []⟩ ⟨0, 0, some 2, some 1, none, 10⟩ 2
    rfl (by decide)

/-- Counterexample to C7 as stated: with a non-empty confirm buffer, a
low-sats point is rejected but the buffer is cleared (src/gps_filter.py line
76), so the filter state is NOT unchanged. -/
theorem C7_counterexample :
    (check ⟨4, 1, 30, 500, 120, 3, 50⟩ (fun _ _ _ _ => 0)
        ⟨some ⟨0, 0, some 8, some 1, none, 0⟩, [⟨1, 1, some 8, some 1, none, 5⟩]⟩
        ⟨0, 0, some 2, some 1, none, 10⟩).1 = ⟨false, some "low_sats"⟩
    ∧ (check ⟨4, 1, 30, 500, 120, 3, 50⟩ (fun _ _ _ _ => 0)
        ⟨some ⟨0, 0, some 8, some 1, none, 0⟩, [⟨1, 1, some 8, some 1, none, 5⟩]⟩
        ⟨0, 0, some 2, some 1, none, 10⟩).2.confirm
      ≠ [⟨1, 1, some 8, some 1, none, 5⟩] := by
  decide

/-- C4 (amended): every accepted point leaves the filter with an empty
confirm buffer; last_accepted equals the accepted point on the bootstrap,
normal-move and confirmed-relocation paths, while the deadband path keeps
the previous last_accepted (clearing only the buffer). -/
theorem C4_accept_state (cfg : GpsFilterCfg) (haversine_m : HaversineFn)
    (st : GpsFilterState) (pt : GpsPoint)
    (h : (check cfg haversine_m st pt).1.accepted = true) :
    (check cfg haversine_m st pt).2.confirm = []
    ∧ ((check cfg haversine_m st pt).2.last_accepted = some pt
       ∨ (check cfg haversine_m st pt).2 = ⟨st.last_accepted, []⟩) := by
  rcases check_result cfg haversine_m st pt with hc | hc | hc | hc | ⟨reason, hc⟩
  · rw [hc] at h; simp at h
  · rw [hc] at h; simp at h
  · rw [hc]; exact ⟨rfl, Or.inl rfl⟩
  · rw [hc]; exact ⟨rfl, Or.inr rfl⟩
  · rcases try_confirm_result cfg haversine_m st pt reason with ht | ⟨ht, _⟩
    · rw [hc, ht]; exact ⟨rfl, Or.inl rfl⟩
    · rw [hc] at h; rw [h] at ht; simp at ht

/-- Witness for C4 at a concrete input: the bootstrap path accepts the first
point and records it. -/
theorem C4_accept_state_witness :
    (check ⟨4, 1, 30, 500, 120, 3, 50⟩ (fun _ _ _ _ => 0)
        ⟨none, []⟩ ⟨10, 20, some 8, some 1, none, 0⟩).2.confirm = []
    ∧ ((check ⟨4, 1, 30, 500, 120, 3, 50⟩ (fun _ _ _ _ => 0)
        ⟨none, []⟩ ⟨10, 20, some 8, some 1, none, 0⟩).2.last_accepted
          = some ⟨10, 20, some 8, some 1, none, 0⟩
       ∨ (check ⟨4, 1, 30, 500, 120, 3, 50⟩ (fun _ _ _ _ => 0)
        ⟨none, []⟩ ⟨10, 20, some 8, some 1, none, 0⟩).2 = ⟨none, []⟩) :=
  C4_accept_state ⟨4, 1, 30, 500, 120, 3, 50⟩ (fun _ _ _ _ => 0)
    ⟨none, []⟩ ⟨10, 20, some 8, some 1, none, 0⟩ (by decide)

/-- Counterexample to C4 as stated: a point strictly inside the deadband (a
repeat fix at the same coordinates, later received_at; haversine of identical
coordinates is 0) is accepted, yet last_accepted stays the previous anchor
point and is NOT the accepted point (src/gps_filter.py lines 92-98). -/
theorem C4_counterexample :
    (check ⟨4, 1, 30, 500, 120, 3, 50⟩ (fun _ _ _ _ => 0)
        ⟨some ⟨10, 20, some 8, some 1, none, 0⟩, []⟩
        ⟨10, 20, some 8, some 1, none, 100⟩).1.accepted = true
    ∧ (check ⟨4, 1, 30, 500, 120, 3, 50⟩ (fun _ _ _ _ => 0)
        ⟨some ⟨10, 20, some 8, some 1, none, 0⟩, []⟩
        ⟨10, 20, some 8, some 1, none, 100⟩).2.last_accepted
      ≠ some ⟨10, 20, some 8, some 1, none, 100⟩ := by
  decide

/-! ## src/handlers.py — `_handle_telemetry`, filtered-latest update -/

/-- The `gps_latest_filtered` row as read by `get_gps_latest` and written by
`upsert_gps_latest` (src/db.py). -/
structure GpsLatestRow where
  gps_time : Option ℚ
  lat : ℚ
  lon : ℚ
  satellites : Option ℤ
  fix_status : Option ℤ
deriving DecidableEq, Repr

/-- Embeds the filter call and the filtered-latest update decision of
`_handle_telemetry` (src/handlers.py lines 135-175): run `check`, and on an
accepted verdict upsert `gps_latest_filtered` unless the filter still has a
last-accepted point, the store holds a previous row, and the stored row is
within deadband of the incoming point.  Returns the verdict, the filter state
after the call, and the `gps_latest_filtered` row after the transaction. -/
def handle_telemetry_latest (cfg : GpsFilterCfg) (haversine_m : HaversineFn)
    (st : GpsFilterState) (pt : GpsPoint) (store : Option GpsLatestRow) :
    GpsVerdict × GpsFilterState × Option GpsLatestRow :=
  let vs := check cfg haversine_m st pt
  if vs.1.accepted then
    let update_latest : Bool :=
      match vs.2.last_accepted with
      | none => true
      | some _ =>
        match store with
        | none => true
        | some prev =>
          !(decide (haversine_m prev.lat prev.lon pt.lat pt.lon < cfg.deadband_m))
    if update_latest then
      (vs.1, vs.2, some ⟨pt.gps_time, pt.lat, pt.lon, pt.satellites, pt.fix_status⟩)
    else
      (vs.1, vs.2, store)
  else
    (vs.1, vs.2, store)

theorem check_deadband (cfg : GpsFilterCfg) (haversine_m : HaversineFn)
    (st : GpsFilterState) (P0 pt : GpsPoint) (hla : st.last_accepted = some P0)
    (hsat : sat_low cfg pt = false) (hfix : fix_bad cfg pt = false)
    (hdist : haversine_m P0.lat P0.lon pt.lat pt.lon < cfg.deadband_m) :
    check cfg haversine_m st pt = (⟨true, none⟩, ⟨st.last_accepted, []⟩) := by
  unfold check
  rw [hla]
  simp [hsat, hfix, hdist, ← hla]

/-- C2 (amended): while last_accepted = P₀, a point P that passes the quality
gates and lies within deadband_m of P₀ gets an accepted verdict; the
gps_latest_filtered row is left unmodified provided the stored row is present
and itself within deadband_m of P (in particular when it is P₀'s row) — when
the stored row is absent or farther away, the handler overwrites it with P. -/
theorem C2_deadband_no_latest_update (cfg : GpsFilterCfg) (haversine_m : HaversineFn)
    (st : GpsFilterState) (P0 pt : GpsPoint) (store : Option GpsLatestRow)
    (hla : st.last_accepted = some P0)
    (hsat : sat_low cfg pt = false) (hfix : fix_bad cfg pt = false)
    (hdist : haversine_m P0.lat P0.lon pt.lat pt.lon < cfg.deadband_m) :
    (handle_telemetry_latest cfg haversine_m st pt store).1.accepted = true
    ∧ (∀ prev, store = some prev →
        haversine_m prev.lat prev.lon pt.lat pt.lon < cfg.deadband_m →
        (handle_telemetry_latest cfg haversine_m st pt store).2.2 = store) := by
  have hc := check_deadband cfg haversine_m st P0 pt hla hsat hfix hdist
  constructor
  · unfold handle_telemetry_latest
    rw [hc]
    simp only
    split_ifs <;> rfl
  · intro prev hstore hprev
    unfold handle_telemetry_latest
    rw [hc, hstore]
    simp [hla, hprev]

/-- Witness for C2 at a concrete input: anchor and point share coordinates
(haversine 0 < deadband 30), the store holds the anchor's row; the point is
accepted and the stored row is untouched. -/
theorem C2_deadband_no_latest_update_witness :
    (handle_telemetry_latest ⟨4, 1, 30, 500, 120, 3, 50⟩ (fun _ _ _ _ => 0)
        ⟨some ⟨10, 20, some 8, some 1, none, 0⟩, []⟩ ⟨10, 20, some 9, some 1, none, 60⟩
        (some ⟨none, 10, 20, some 8, some 1⟩)).1.accepted = true
    ∧ (handle_telemetry_latest ⟨4, 1, 30, 500, 120, 3, 50⟩ (fun _ _ _ _ => 0)
        ⟨some ⟨10, 20, some 8, some 1, none, 0⟩, []⟩ ⟨10, 20, some 9, some 1, none, 60⟩
        (some ⟨none, 10, 20, some 8, some 1⟩)).2.2
      = some ⟨none, 10, 20, some 8, some 1⟩ :=
  ⟨(C2_deadband_no_latest_update ⟨4, 1, 30, 500, 120, 3, 50⟩ (fun _ _ _ _ => 0)
      ⟨some ⟨10, 20, some 8, some 1, none, 0⟩, []⟩ ⟨10, 20, some 8, some 1, none, 0⟩
      ⟨10, 20, some 9, some 1, none, 60⟩ (some ⟨none, 10, 20, some 8, some 1⟩)
      rfl (by decide) (by decide) (by decide)).1,
   (C2_deadband_no_latest_update ⟨4, 1, 30, 500, 120, 3, 50⟩ (fun _ _ _ _ => 0)
      ⟨some ⟨10, 20, some 8, some 1, none, 0⟩, []⟩ ⟨10, 20, some 8, some 1, none, 0⟩
      ⟨10, 20, some 9, some 1, none, 60⟩ (some ⟨none, 10, 20, some 8, some 1⟩)
      rfl (by decide) (by decide) (by decide)).2
     ⟨none, 10, 20, some 8, some 1⟩ rfl (by decide)⟩

/-- Counterexample to C2 as stated: last_accepted = P₀, the incoming point
repeats P₀'s coordinates (haversine 0 < deadband 30) and passes quality, yet
the store has no gps_latest_filtered row, so the handler WRITES one — the row
is modified (src/handlers.py lines 155-175 check the store row, not P₀). -/
theorem C2_counterexample :
    (handle_telemetry_latest ⟨4, 1, 30, 500, 120, 3, 50⟩ (fun _ _ _ _ => 0)
        ⟨some ⟨10, 20, some 8, some 1, none, 0⟩, []⟩
        ⟨10, 20, some 8, some 1, none, 60⟩ none).1.accepted = true
    ∧ (handle_telemetry_latest ⟨4, 1, 30, 500, 120, 3, 50⟩ (fun _ _ _ _ => 0)
        ⟨some ⟨10, 20, some 8, some 1, none, 0⟩, []⟩
        ⟨10, 20, some 8, some 1, none, 60⟩ none).2.2 ≠ none := by
  decide

/-- Helper: `_try_confirm` on an empty buffer, as an if-expression. -/
theorem try_confirm_nil_eq (cfg : GpsFilterCfg) (haversine_m : HaversineFn)
    (la : Option GpsPoint) (pt : GpsPoint) (reason : String) :
    try_confirm cfg haversine_m ⟨la, []⟩ pt reason
      = if ((1 : ℤ) ≥ cfg.confirm_points) then (⟨true, none⟩, ⟨some pt, []⟩)
        else (⟨false, some reason⟩, ⟨la, [pt]⟩) := rfl

/-- Helper: `_try_confirm` on a non-empty buffer, as an if-expression. -/
theorem try_confirm_cons_eq (cfg : GpsFilterCfg) (haversine_m : HaversineFn)
    (la : Option GpsPoint) (q1 : GpsPoint) (bt : List GpsPoint) (pt : GpsPoint)
    (reason : String) :
    try_confirm cfg haversine_m ⟨la, q1 :: bt⟩ pt reason
      = if haversine_m q1.lat q1.lon pt.lat pt.lon > cfg.confirm_radius_m then
          (⟨false, some reason⟩, ⟨la, [pt]⟩)
        else if ((((q1 :: bt) ++ [pt]).length : ℤ) ≥ cfg.confirm_points) then
          (⟨true, none⟩, ⟨some pt, []⟩)
        else (⟨false, some reason⟩, ⟨la, (q1 :: bt) ++ [pt]⟩) := rfl

/-- Helper: a quality-passing point beyond max_jump_m of the anchor (with
deadband_m ≤ max_jump_m) routes `check` into `_try_confirm` with reason
jump_distance. -/
theorem check_far_jump (cfg : GpsFilterCfg) (haversine_m : HaversineFn)
    (st : GpsFilterState) (P0 pt : GpsPoint) (hla : st.last_accepted = some P0)
    (hsat : sat_low cfg pt = false) (hfix : fix_bad cfg pt = false)
    (hdb : cfg.deadband_m ≤ cfg.max_jump_m)
    (hfar : haversine_m P0.lat P0.lon pt.lat pt.lon > cfg.max_jump_m) :
    check cfg haversine_m st pt
      = try_confirm cfg haversine_m st pt "jump_distance" := by
  unfold check
  rw [hla]
  have hnd : ¬ haversine_m P0.lat P0.lon pt.lat pt.lon < cfg.deadband_m := by
    push_neg
    linarith
  simp [hsat, hfix, hnd, hfar]

/-- Helper: the confirm-sequence induction.  With the buffer already holding
`q1 :: bt` (reference point `q1`) and `rs` the remaining far candidates, all
within confirm_radius_m of `q1`, the lengths adding up to confirm_points, the
filter rejects all but the last candidate and then accepts the last one. -/
theorem confirm_sequence_aux (cfg : GpsFilterCfg) (haversine_m : HaversineFn)
    (P0 q1 : GpsPoint) (hdb : cfg.deadband_m ≤ cfg.max_jump_m) :
    ∀ (rs : List GpsPoint) (bt : List GpsPoint),
      rs ≠ [] →
      (((q1 :: bt).length : ℤ) + rs.length = cfg.confirm_points) →
      (∀ q ∈ rs, sat_low cfg q = false ∧ fix_bad cfg q = false
        ∧ haversine_m P0.lat P0.lon q.lat q.lon > cfg.max_jump_m
        ∧ ¬ haversine_m q1.lat q1.lon q.lat q.lon > cfg.confirm_radius_m) →
      run_filter cfg haversine_m ⟨some P0, q1 :: bt⟩ rs
        = (List.replicate (rs.length - 1) ⟨false, some "jump_distance"⟩
             ++ [⟨true, none⟩],
           ⟨some (rs.getLastD q1), []⟩) := by
  intro rs
  induction rs with
  | nil => intro bt hne; cases hne rfl
  | cons q rs' ih =>
    intro bt _ hlen hq
    obtain ⟨hs, hf, hfar, hnear⟩ := hq q (by simp)
    have hstep := check_far_jump cfg haversine_m ⟨some P0, q1 :: bt⟩ P0 q rfl
      hs hf hdb hfar
    rcases rs' with _ | ⟨q2, rs''⟩
    · have hge : ((((q1 :: bt) ++ [q]).length : ℤ) ≥ cfg.confirm_points) := by
        simp only [List.length_append, List.length_cons, List.length_nil] at hlen ⊢
        push_cast at hlen ⊢
        omega
      rw [run_filter_cons, hstep, try_confirm_cons_eq, if_neg hnear, if_pos hge]
      simp [run_filter, List.getLastD]
    · have hlt : ¬ ((((q1 :: bt) ++ [q]).length : ℤ) ≥ cfg.confirm_points) := by
        simp only [List.length_append, List.length_cons, List.length_nil] at hlen ⊢
        push_cast at hlen ⊢
        omega
      rw [run_filter_cons, hstep, try_confirm_cons_eq, if_neg hnear, if_neg hlt]
      have harr : (q1 :: bt) ++ [q] = q1 :: (bt ++ [q]) := by simp
      rw [harr]
      have ihres := ih (bt ++ [q]) (by simp)
        (by simp only [List.length_append, List.length_cons, List.length_nil] at hlen ⊢
            push_cast at hlen ⊢
            omega)
        (fun q' hq' => hq q' (by simp [hq']))
      rw [ihres]
      simp only [List.length_cons, List.getLastD_cons]
      simp [List.replicate_succ]

/-- C3 (amended): `_try_confirm` behaviour — on an empty buffer the point is
appended and rejected with the given reason provided confirm_points ≥ 2 (with
confirm_points ≤ 1 the appended point already fills the buffer and is
accepted); on a non-empty buffer, a point farther than confirm_radius_m from
buffer[0] resets the buffer to [point] and is rejected; otherwise the point
is appended, accepted if the buffer length reaches confirm_points (clearing
the buffer and setting last_accepted), rejected if still below.  In
particular, after one accepted point P₀, a sequence of confirm_points
quality-passing points beyond max_jump_m of P₀ and within confirm_radius_m
of the first gets its first confirm_points − 1 points rejected and its last
point accepted. -/
theorem C3_try_confirm_behavior :
    (∀ (cfg : GpsFilterCfg) (haversine_m : HaversineFn) (la : Option GpsPoint)
        (pt : GpsPoint) (reason : String), 2 ≤ cfg.confirm_points →
        try_confirm cfg haversine_m ⟨la, []⟩ pt reason
          = (⟨false, some reason⟩, ⟨la, [pt]⟩))
    ∧ (∀ (cfg : GpsFilterCfg) (haversine_m : HaversineFn) (la : Option GpsPoint)
        (ref : GpsPoint) (rest : List GpsPoint) (pt : GpsPoint) (reason : String),
        haversine_m ref.lat ref.lon pt.lat pt.lon > cfg.confirm_radius_m →
        try_confirm cfg haversine_m ⟨la, ref :: rest⟩ pt reason
          = (⟨false, some reason⟩, ⟨la, [pt]⟩))
    ∧ (∀ (cfg : GpsFilterCfg) (haversine_m : HaversineFn) (la : Option GpsPoint)
        (ref : GpsPoint) (rest : List GpsPoint) (pt : GpsPoint) (reason : String),
        ¬ haversine_m ref.lat ref.lon pt.lat pt.lon > cfg.confirm_radius_m →
        ((cfg.confirm_points ≤ (rest.length : ℤ) + 2 →
            try_confirm cfg haversine_m ⟨la, ref :: rest⟩ pt reason
              = (⟨true, none⟩, ⟨some pt, []⟩))
          ∧ ((rest.length : ℤ) + 2 < cfg.confirm_points →
            try_confirm cfg haversine_m ⟨la, ref :: rest⟩ pt reason
              = (⟨false, some reason⟩, ⟨la, (ref :: rest) ++ [pt]⟩))))
    ∧ (∀ (cfg : GpsFilterCfg) (haversine_m : HaversineFn) (P0 q1 : GpsPoint)
        (qrest : List GpsPoint),
        cfg.deadband_m ≤ cfg.max_jump_m →
        cfg.confirm_points = (((q1 :: qrest).length : ℕ) : ℤ) →
        (∀ q ∈ q1 :: qrest, sat_low cfg q = false ∧ fix_bad cfg q = false
          ∧ haversine_m P0.lat P0.lon q.lat q.lon > cfg.max_jump_m
          ∧ ¬ haversine_m q1.lat q1.lon q.lat q.lon > cfg.confirm_radius_m) →
        run_filter cfg haversine_m ⟨some P0, []⟩ (q1 :: qrest)
          = (List.replicate qrest.length ⟨false, some "jump_distance"⟩
               ++ [⟨true, none⟩],
             ⟨some (qrest.getLastD q1), []⟩)) := by
  refine ⟨?_, ?_, ?_, ?_⟩
  · intro cfg haversine_m la pt reason h2
    rw [try_confirm_nil_eq, if_neg (by omega)]
  · intro cfg haversine_m la ref rest pt reason hfarr
    rw [try_confirm_cons_eq, if_pos hfarr]
  · intro cfg haversine_m la ref rest pt reason hnear
    constructor
    · intro hge
      rw [try_confirm_cons_eq, if_neg hnear, if_pos (by
        simp only [List.length_append, List.length_cons, List.length_nil]
        push_cast
        omega)]
    · intro hlt
      rw [try_confirm_cons_eq, if_neg hnear, if_neg (by
        simp only [List.length_append, List.length_cons, List.length_nil]
        push_cast
        omega)]
  · intro cfg haversine_m P0 q1 qrest hdb hN hq
    obtain ⟨hs1, hf1, hfar1, _⟩ := hq q1 (by simp)
    have hstep := check_far_jump cfg haversine_m ⟨some P0, []⟩ P0 q1 rfl
      hs1 hf1 hdb hfar1
    rcases qrest with _ | ⟨q2, qr⟩
    · have h1 : ((1 : ℤ) ≥ cfg.confirm_points) := by
        simp only [List.length_cons, List.length_nil] at hN
        omega
      rw [run_filter_cons, hstep, try_confirm_nil_eq, if_pos h1]
      simp [run_filter, List.getLastD]
    · have h1 : ¬ ((1 : ℤ) ≥ cfg.confirm_points) := by
        simp only [List.length_cons] at hN
        push_cast at hN
        omega
      rw [run_filter_cons, hstep, try_confirm_nil_eq, if_neg h1]
      have ihres := confirm_sequence_aux cfg haversine_m P0 q1 hdb (q2 :: qr) []
        (by simp)
        (by simp only [List.length_cons, List.length_nil] at hN ⊢
            push_cast at hN ⊢
            omega)
        (fun q' hq' => hq q' (by simp [hq']))
      rw [ihres]
      simp only [List.length_cons, List.getLastD_cons, Nat.succ_sub_one]
      rw [← List.cons_append, ← List.replicate_succ]

/-- Witness for C3 at a concrete input: confirm_points = 3, anchor at (0,0),
three candidates at latitude 1 (the distance function returns 1000 m across
latitudes and 10 m within latitude 1, values the haversine takes for suitably
chosen coordinates): two rejections then acceptance of the third point. -/
theorem C3_try_confirm_behavior_witness :
    run_filter ⟨4, 1, 30, 500, 120, 3, 50⟩
        (fun lat1 _ lat2 _ => if lat1 = lat2 then 10 else 1000)
        ⟨some ⟨0, 0, some 8, some 1, none, 0⟩, []⟩
        [⟨1, 0, some 8, some 1, none, 10⟩, ⟨1, 1, some 8, some 1, none, 20⟩,
         ⟨1, 2, some 8, some 1, none, 30⟩]
      = ([⟨false, some "jump_distance"⟩, ⟨false, some "jump_distance"⟩,
          ⟨true, none⟩],
         ⟨some ⟨1, 2, some 8, some 1, none, 30⟩, []⟩) := by
  have h := C3_try_confirm_behavior.2.2.2 ⟨4, 1, 30, 500, 120, 3, 50⟩
    (fun lat1 _ lat2 _ => if lat1 = lat2 then 10 else 1000)
    ⟨0, 0, some 8, some 1, none, 0⟩ ⟨1, 0, some 8, some 1, none, 10⟩
    [⟨1, 1, some 8, some 1, none, 20⟩, ⟨1, 2, some 8, some 1, none, 30⟩]
    (by norm_num) (by decide) (by decide)
  simpa using h

/-- Counterexample to C3 as stated: with confirm_points = 1 (an admissible
integer configuration value), a far point arriving on an EMPTY confirm buffer
is appended, immediately fills the buffer, and is ACCEPTED — not rejected as
the claim's empty-buffer clause demands (src/gps_filter.py lines 140-147). -/
theorem C3_counterexample :
    (check ⟨4, 1, 30, 500, 120, 1, 50⟩ (fun _ _ _ _ => 1000)
        ⟨some ⟨0, 0, some 8, some 1, none, 0⟩, []⟩
        ⟨1, 1, some 8, some 1, none, 10⟩).1 = ⟨true, none⟩
    ∧ (check ⟨4, 1, 30, 500, 120, 1, 50⟩ (fun _ _ _ _ => 1000)
        ⟨some ⟨0, 0, some 8, some 1, none, 0⟩, []⟩
        ⟨1, 1, some 8, some 1, none, 10⟩).2
      = ⟨some ⟨1, 1, some 8, some 1, none, 10⟩, []⟩ := by
  decide

/-! ## src/handlers.py — `_handle_decoded` latest_state staging -/

/-- The JSON `value` of a register as the handler sees it: either something
`Decimal(str(value))` parses (a numeric), or not (its `str(value)` form). -/
inductive RegValue
  | num (q : ℚ)
  | nonnum (s : String)
deriving DecidableEq, Repr

/-- One element of the decoded message's `registers` array, after the
per-field `reg.get(...)` reads of `_process_register_batched`
(src/handlers.py lines 303-314); `addr = none` models `int(reg["addr"])`
raising. -/
structure RegInput where
  addr : Option ℤ
  value : Option RegValue
  raw : Option ℤ
  text : Option String
  unit : Option String
  name : Option String
  reason : Option String
deriving DecidableEq, Repr

/-- The per-message constants of the staged rows. -/
structure StageCtx where
  router_sn : String
  equip_type : String
  panel_id : ℤ
  ts : Option ℚ
deriving DecidableEq, Repr

/-- A staged `latest_state` row (src/handlers.py lines 329-341). -/
structure LatestRow where
  router_sn : String
  equip_type : String
  panel_id : ℤ
  addr : ℤ
  ts : Option ℚ
  value : Option ℚ
  raw : Option ℤ
  text : Option String
  unit : Option String
  name : Option String
  reason : Option String
deriving DecidableEq, Repr

/-- The `value`/`text` coercion of `_process_register_batched`
(src/handlers.py lines 316-324): numeric value kept as Decimal; on coercion
failure the numeric stays null and `text` falls back to `str(value)` when
`text` itself is null. -/
def coerce_value : Option RegValue → Option String → Option ℚ × Option String
  | none, text => (none, text)
  | some (.num q), text => (some q, text)
  | some (.nonnum s), text =>
    (none, match text with
           | none => some s
           | some t => some t)

/-- The `latest_state` tuple staged for a register (src/handlers.py 329-341). -/
def mk_latest_row (c : StageCtx) (a : ℤ) (r : RegInput) : LatestRow :=
  { router_sn := c.router_sn, equip_type := c.equip_type, panel_id := c.panel_id,
    addr := a, ts := c.ts, value := (coerce_value r.value r.text).1,
    raw := r.raw, text := (coerce_value r.value r.text).2,
    unit := r.unit, name := r.name, reason := r.reason }

/-- Python-dict assignment `m[k] = v` on an insertion-ordered association
list: replace the binding in place, or append a new one. -/
def set_entry {κ β : Type} [DecidableEq κ] : List (κ × β) → κ → β → List (κ × β)
  | [], k, v => [(k, v)]
  | (k', v') :: rest, k, v =>
    if k' = k then (k, v) :: rest else (k', v') :: set_entry rest k v

/-- Python-dict lookup `m.get(k)` on an association list. -/
def get_entry {κ β : Type} [DecidableEq κ] : List (κ × β) → κ → Option β
  | [], _ => none
  | (k', v) :: rest, k => if k' = k then some v else get_entry rest k

/-- Embeds the `latest_rows_map` accumulation of `_handle_decoded` /
`_process_register_batched` (src/handlers.py lines 238, 252-267, 329-341):
each register with a parseable addr stages `latest_rows_map[addr] = row`;
registers without a parseable addr are skipped. -/
def stage_latest_go (c : StageCtx) (acc : List (ℤ × LatestRow)) :
    List RegInput → List (ℤ × LatestRow)
  | [] => acc
  | r :: rest =>
    match r.addr with
    | none => stage_latest_go c acc rest
    | some a => stage_latest_go c (set_entry acc a (mk_latest_row c a r)) rest

/-- The `latest_rows_map` after one decoded message (started empty). -/
def stage_latest (c : StageCtx) (regs : List RegInput) : List (ℤ × LatestRow) :=
  stage_latest_go c [] regs

/-- The last register of the message carrying address `a` (later duplicates
in the same message win). -/
def last_reg_for (a : ℤ) : List RegInput → Option RegInput
  | [] => none
  | r :: rest =>
    match last_reg_for a rest with
    | some r' => some r'
    | none => if r.addr = some a then some r else none

/-- The addresses of the message's registers that parsed. -/
def valid_addrs (regs : List RegInput) : List ℤ :=
  regs.filterMap (fun r => r.addr)

theorem get_set_entry {κ β : Type} [DecidableEq κ] :
    ∀ (m : List (κ × β)) (k : κ) (v : β) (a : κ),
      get_entry (set_entry m k v) a = if a = k then some v else get_entry m a := by
  intro m k v
  induction m with
  | nil =>
    intro a
    by_cases h : a = k <;> simp_all [set_entry, get_entry, eq_comm]
  | cons p rest ih =>
    intro a
    obtain ⟨k', v'⟩ := p
    by_cases hk : k' = k <;> by_cases ha : a = k <;>
      simp_all [set_entry, get_entry, eq_comm]

theorem mem_keys_set_entry {κ β : Type} [DecidableEq κ] :
    ∀ (m : List (κ × β)) (k : κ) (v : β) (a : κ),
      (a ∈ (set_entry m k v).map Prod.fst ↔ a = k ∨ a ∈ m.map Prod.fst) := by
  intro m k v
  induction m with
  | nil => intro a; simp [set_entry]
  | cons p rest ih =>
    intro a
    obtain ⟨k', v'⟩ := p
    by_cases hk : k' = k
    · subst hk
      simp [set_entry]
    · simp only [set_entry, if_neg hk, List.map_cons, List.mem_cons, ih]
      tauto

theorem nodup_keys_set_entry {κ β : Type} [DecidableEq κ] :
    ∀ (m : List (κ × β)) (k : κ) (v : β),
      (m.map Prod.fst).Nodup → ((set_entry m k v).map Prod.fst).Nodup := by
  intro m k v
  induction m with
  | nil => intro _; simp [set_entry]
  | cons p rest ih =>
    intro hnd
    obtain ⟨k', v'⟩ := p
    simp only [List.map_cons, List.nodup_cons] at hnd
    by_cases hk : k' = k
    · subst hk
      simpa [set_entry, List.nodup_cons] using hnd
    · simp only [set_entry, if_neg hk, List.map_cons, List.nodup_cons]
      refine ⟨?_, ih hnd.2⟩
      rw [mem_keys_set_entry]
      rintro (h | h)
      · exact hk h
      · exact hnd.1 h

theorem get_stage_go (c : StageCtx) :
    ∀ (regs : List RegInput) (acc : List (ℤ × LatestRow)) (a : ℤ),
      get_entry (stage_latest_go c acc regs) a
        = match last_reg_for a regs with
          | some r => some (mk_latest_row c a r)
          | none => get_entry acc a := by
  intro regs
  induction regs with
  | nil => intro acc a; simp [stage_latest_go, last_reg_for]
  | cons r rest ih =>
    intro acc a
    rcases haddr : r.addr with _ | b
    · rw [show stage_latest_go c acc (r :: rest)
          = stage_latest_go c acc rest by simp [stage_latest_go, haddr], ih]
      rcases hl : last_reg_for a rest with _ | r'
      · simp [last_reg_for, hl, haddr]
      · simp [last_reg_for, hl]
    · rw [show stage_latest_go c acc (r :: rest)
          = stage_latest_go c (set_entry acc b (mk_latest_row c b r)) rest
          by simp [stage_latest_go, haddr], ih]
      rcases hl : last_reg_for a rest with _ | r'
      · by_cases hab : a = b
        · subst hab
          simp [last_reg_for, hl, get_set_entry, haddr]
        · have hba : ¬ (b = a) := fun h => hab h.symm
          simp [last_reg_for, hl, get_set_entry, haddr, hab, hba]
      · simp [last_reg_for, hl]

theorem mem_keys_stage_go (c : StageCtx) :
    ∀ (regs : List RegInput) (acc : List (ℤ × LatestRow)) (a : ℤ),
      (a ∈ (stage_latest_go c acc regs).map Prod.fst
        ↔ a ∈ acc.map Prod.fst ∨ a ∈ valid_addrs regs) := by
  intro regs
  induction regs with
  | nil => intro acc a; simp [stage_latest_go, valid_addrs]
  | cons r rest ih =>
    intro acc a
    rcases haddr : r.addr with _ | b
    · rw [show stage_latest_go c acc (r :: rest)
          = stage_latest_go c acc rest by simp [stage_latest_go, haddr], ih]
      simp [valid_addrs, haddr]
    · rw [show stage_latest_go c acc (r :: rest)
          = stage_latest_go c (set_entry acc b (mk_latest_row c b r)) rest
          by simp [stage_latest_go, haddr], ih, mem_keys_set_entry]
      simp only [valid_addrs, List.filterMap_cons, haddr]
      simp [List.mem_cons]
      tauto

theorem nodup_keys_stage_go (c : StageCtx) :
    ∀ (regs : List RegInput) (acc : List (ℤ × LatestRow)),
      (acc.map Prod.fst).Nodup → ((stage_latest_go c acc regs).map Prod.fst).Nodup := by
  intro regs
  induction regs with
  | nil => intro acc h; simpa [stage_latest_go] using h
  | cons r rest ih =>
    intro acc h
    rcases haddr : r.addr with _ | b
    · rw [show stage_latest_go c acc (r :: rest)
          = stage_latest_go c acc rest by simp [stage_latest_go, haddr]]
      exact ih acc h
    · rw [show stage_latest_go c acc (r :: rest)
          = stage_latest_go c (set_entry acc b (mk_latest_row c b r)) rest
          by simp [stage_latest_go, haddr]]
      exact ih _ (nodup_keys_set_entry acc b _ h)

/-- C6: for every decoded message, the staged latest_state batch has no two
rows for the same addr, its size equals the number of distinct valid
addresses in the message, and the row staged for an addr holds the values of
the message's last occurrence of that addr. -/
theorem C6_latest_batch_by_distinct_addr (c : StageCtx) (regs : List RegInput) :
    ((stage_latest c regs).map Prod.fst).Nodup
    ∧ (stage_latest c regs).length = ((valid_addrs regs).dedup).length
    ∧ (∀ a : ℤ, get_entry (stage_latest c regs) a
        = match last_reg_for a regs with
          | some r => some (mk_latest_row c a r)
          | none => none) := by
  refine ⟨?_, ?_, ?_⟩
  · exact nodup_keys_stage_go c regs [] (by simp)
  · have hnd : ((stage_latest c regs).map Prod.fst).Nodup :=
      nodup_keys_stage_go c regs [] (by simp)
    have hmem : ∀ a, a ∈ (stage_latest c regs).map Prod.fst
        ↔ a ∈ (valid_addrs regs).dedup := by
      intro a
      rw [List.mem_dedup]
      simpa [stage_latest] using mem_keys_stage_go c regs [] a
    have hperm : List.Perm ((stage_latest c regs).map Prod.fst)
        ((valid_addrs regs).dedup) :=
      (List.perm_ext_iff_of_nodup hnd (List.nodup_dedup _)).2 hmem
    have hlen := hperm.length_eq
    rw [List.length_map] at hlen
    exact hlen
  · intro a
    rw [stage_latest, get_stage_go c regs [] a]
    rcases hl : last_reg_for a regs with _ | r <;> simp [get_entry]

/-! ## src/handlers.py — `dispatch`

Topics are Python `str` values; they are modelled here by their character
sequences (`List Char`) so that the topic-shape matching is a structural,
executable function.  `_RE_TELEMETRY` / `_RE_DECODED` anchor on the whole
topic and their groups are slash-free (`[^/]+`) resp. digits (`\d+`), so
matching is equivalent to splitting the topic on `/` and inspecting the
segments. -/

/-- Splitting a character sequence on `/` (every segment is slash-free, and
joining the segments with `/` restores the input). -/
def split_slash : List Char → List (List Char)
  | [] => [[]]
  | c :: rest =>
    if c = '/' then [] :: split_slash rest
    else
      match split_slash rest with
      | seg :: segs => (c :: seg) :: segs
      | [] => [[c]]

/-- The numeric value of a digit string, as `int(...)` of a `\d+` group. -/
def digits_to_nat (s : List Char) : ℕ :=
  s.foldl (fun acc c => 10 * acc + (c.toNat - '0'.toNat)) 0

/-- Embeds the `_RE_TELEMETRY` match `^cg/v1/telemetry/SN/([^/]+)$`
(src/handlers.py line 29): exactly five segments, the literal prefix, and a
non-empty serial. -/
def match_telemetry_topic (topic : List Char) : Option (List Char) :=
  match split_slash topic with
  | [s1, s2, s3, s4, sn] =>
    if s1 = "cg".data ∧ s2 = "v1".data ∧ s3 = "telemetry".data ∧ s4 = "SN".data
        ∧ sn ≠ [] then
      some sn
    else none
  | _ => none

/-- Embeds the `_RE_DECODED` match `^cg/v1/decoded/SN/([^/]+)/pcc/(\d+)$`
(src/handlers.py line 30): exactly seven segments, the literal pieces, a
non-empty serial, and a non-empty all-digit panel id converted by `int`. -/
def match_decoded_topic (topic : List Char) : Option (List Char × ℕ) :=
  match split_slash topic with
  | [s1, s2, s3, s4, sn, s6, pid] =>
    if s1 = "cg".data ∧ s2 = "v1".data ∧ s3 = "decoded".data ∧ s4 = "SN".data
        ∧ sn ≠ [] ∧ s6 = "pcc".data ∧ pid ≠ [] ∧ pid.all Char.isDigit then
      some (sn, digits_to_nat pid)
    else none
  | _ => none

/-- What `dispatch` did with the message. -/
inductive DispatchAction (α : Type)
  | telemetryHandled (sn : List Char) (data : α)
  | decodedHandled (sn : List Char) (panel_id : ℕ) (data : α)
  | droppedBadJson
  | droppedUnknownTopic
deriving DecidableEq, Repr

/-- The liveness maps `last_seen` / `panel_last_seen` that `dispatch`
mutates (src/handlers.py lines 43-78). -/
structure DispatchState where
  last_seen : List (List Char × ℚ)
  panel_last_seen : List ((List Char × ℕ) × ℚ)
deriving DecidableEq, Repr

/-- Embeds `dispatch` (src/handlers.py lines 43-78).  The payload parameter
is the outcome of `json.loads(payload_bytes)`: `none` models a
`JSONDecodeError` (the decoded document itself is opaque here, type `α`).
The code refreshes the liveness map(s) BEFORE parsing, so the refresh happens
whether or not the payload parses; the two `datetime.now` calls of the
decoded branch are both modelled as `now`. -/
def dispatch {α : Type} (topic : List Char) (payload : Option α) (now : ℚ)
    (st : DispatchState) : DispatchState × DispatchAction α :=
  match match_telemetry_topic topic with
  | some sn =>
    let st' : DispatchState :=
      { st with last_seen := set_entry st.last_seen sn now }
    match payload with
    | none => (st', .droppedBadJson)
    | some d => (st', .telemetryHandled sn d)
  | none =>
    match match_decoded_topic topic with
    | some (sn, pid) =>
      let st' : DispatchState :=
        { last_seen := set_entry st.last_seen sn now,
          panel_last_seen := set_entry st.panel_last_seen (sn, pid) now }
      match payload with
      | none => (st', .droppedBadJson)
      | some d => (st', .decodedHandled sn pid d)
    | none => (st, .droppedUnknownTopic)

/-- Helper: a topic that matches the decoded shape (7 segments) does not
match the telemetry shape (5 segments). -/
theorem decoded_not_telemetry (topic : List Char) (x : List Char × ℕ)
    (h : match_decoded_topic topic = some x) :
    match_telemetry_topic topic = none := by
  unfold match_decoded_topic at h
  split at h
  · rename_i s1 s2 s3 s4 sn s6 pid heq
    unfold match_telemetry_topic
    rw [heq]
  · exact absurd h (by simp)

/-- C9: for every incoming message whose topic matches one of the two
recognized shapes, dispatch refreshes the router's (and, for decoded topics,
the panel's) liveness timestamp regardless of whether the JSON payload
parses; a malformed payload is dropped (no handler runs) but still counts as
contact. -/
theorem C9_liveness_refresh_before_parse {α : Type} (topic : List Char)
    (payload : Option α) (now : ℚ) (st : DispatchState) :
    (∀ sn, match_telemetry_topic topic = some sn →
      (get_entry (dispatch topic payload now st).1.last_seen sn = some now
        ∧ (dispatch topic payload now st).1.panel_last_seen = st.panel_last_seen
        ∧ (payload = none →
            (dispatch topic payload now st).2 = DispatchAction.droppedBadJson)))
    ∧ (∀ sn pid, match_decoded_topic topic = some (sn, pid) →
      (get_entry (dispatch topic payload now st).1.last_seen sn = some now
        ∧ get_entry (dispatch topic payload now st).1.panel_last_seen (sn, pid)
            = some now
        ∧ (payload = none →
            (dispatch topic payload now st).2 = DispatchAction.droppedBadJson))) := by
  constructor
  · intro sn hm
    unfold dispatch
    rw [hm]
    rcases payload with _ | d <;> simp [get_set_entry]
  · intro sn pid hm
    unfold dispatch
    rw [decoded_not_telemetry topic (sn, pid) hm, hm]
    rcases payload with _ | d <;> simp [get_set_entry]

/-- Witness for C9 at concrete inputs: a malformed telemetry payload and a
malformed decoded payload both refresh liveness and are dropped. -/
theorem C9_liveness_refresh_before_parse_witness :
    (get_entry (dispatch (α := Unit) "cg/v1/telemetry/SN/R1".data none 100
        ⟨[], []⟩).1.last_seen "R1".data = some 100
      ∧ (dispatch (α := Unit) "cg/v1/telemetry/SN/R1".data none 100
        ⟨[], []⟩).2 = DispatchAction.droppedBadJson)
    ∧ (get_entry (dispatch (α := Unit) "cg/v1/decoded/SN/R2/pcc/3".data none 200
        ⟨[], []⟩).1.last_seen "R2".data = some 200
      ∧ get_entry (dispatch (α := Unit) "cg/v1/decoded/SN/R2/pcc/3".data none 200
        ⟨[], []⟩).1.panel_last_seen ("R2".data, 3) = some 200
      ∧ (dispatch (α := Unit) "cg/v1/decoded/SN/R2/pcc/3".data none 200
        ⟨[], []⟩).2 = DispatchAction.droppedBadJson) := by
  have h1 := (C9_liveness_refresh_before_parse (α := Unit)
    "cg/v1/telemetry/SN/R1".data none 100 ⟨[], []⟩).1 "R1".data (by decide)
  have h2 := (C9_liveness_refresh_before_parse (α := Unit)
    "cg/v1/decoded/SN/R2/pcc/3".data none 200 ⟨[], []⟩).2 "R2".data 3 (by decide)
  exact ⟨⟨h1.1, h1.2.2 rfl⟩, ⟨h2.1, h2.2.1, h2.2.2 rfl⟩⟩

/-! ## src/watchdog.py -/

/-- The events-policy thresholds used by the watchdog
(src/config.py lines 118-126). -/
structure EventsPolicyCfg where
  router_stale_sec : ℤ
  router_offline_sec : ℤ
  panel_stale_sec : ℤ
  panel_offline_sec : ℤ
deriving DecidableEq, Repr

/-- An `events` row as `insert_event` receives it from the watchdog. -/
structure DbEvent where
  router_sn : String
  event_type : String
  description : String
  equip_type : Option String
  panel_id : Option ℤ
deriving DecidableEq, Repr

/-- Embeds the state classification of `_check` (src/watchdog.py lines 53-58
and 69-74): offline at or past the offline threshold, else stale at or past
the stale threshold, else online. -/
def classify (age : ℚ) (stale_sec offline_sec : ℤ) : String :=
  if age ≥ (offline_sec : ℚ) then "offline"
  else if age ≥ (stale_sec : ℚ) then "stale"
  else "online"

/-- Embeds `_emit_router_event` (src/watchdog.py lines 81-95): an event only
for transitions to offline and for recoveries to online from offline/stale. -/
def emit_router_event (router_sn prev nw : String) : Option DbEvent :=
  if nw = "offline" then
    some ⟨router_sn, "router_offline", prev ++ " → " ++ nw, none, none⟩
  else if nw = "online" ∧ (prev = "offline" ∨ prev = "stale") then
    some ⟨router_sn, "router_online", prev ++ " → " ++ nw, none, none⟩
  else none

/-- Embeds `_emit_panel_event` (src/watchdog.py lines 98-116): same gating,
with `equip_type="pcc"`, the panel id, and a `panel_id=<id> ` description
prefix. -/
def emit_panel_event (router_sn : String) (panel_id : ℤ) (prev nw : String) :
    Option DbEvent :=
  if nw = "offline" then
    some ⟨router_sn, "panel_offline",
      "panel_id=" ++ toString panel_id ++ " " ++ prev ++ " → " ++ nw,
      some "pcc", some panel_id⟩
  else if nw = "online" ∧ (prev = "offline" ∨ prev = "stale") then
    some ⟨router_sn, "panel_online",
      "panel_id=" ++ toString panel_id ++ " " ++ prev ++ " → " ++ nw,
      some "pcc", some panel_id⟩
  else none

/-- Embeds one router entry of a `_check` sweep (src/watchdog.py lines
49-62): classify the age, default the previous state to online, emit on
transition, store the new state only on transition. -/
def router_check_step (ep : EventsPolicyCfg) (now ts : ℚ)
    (stored : Option String) (router_sn : String) :
    Option DbEvent × Option String :=
  let prev := stored.getD "online"
  let nw := classify (now - ts) ep.router_stale_sec ep.router_offline_sec
  if nw ≠ prev then (emit_router_event router_sn prev nw, some nw)
  else (none, stored)

/-- Embeds one panel entry of a `_check` sweep (src/watchdog.py lines
65-78). -/
def panel_check_step (ep : EventsPolicyCfg) (now ts : ℚ)
    (stored : Option String) (router_sn : String) (panel_id : ℤ) :
    Option DbEvent × Option String :=
  let prev := stored.getD "online"
  let nw := classify (now - ts) ep.panel_stale_sec ep.panel_offline_sec
  if nw ≠ prev then (emit_panel_event router_sn panel_id prev nw, some nw)
  else (none, stored)

theorem classify_cases (age : ℚ) (stale_sec offline_sec : ℤ) :
    (classify age stale_sec offline_sec = "offline" ↔ age ≥ (offline_sec : ℚ))
    ∧ (classify age stale_sec offline_sec = "stale"
        ↔ (¬ age ≥ (offline_sec : ℚ) ∧ age ≥ (stale_sec : ℚ)))
    ∧ (classify age stale_sec offline_sec = "online"
        ↔ (¬ age ≥ (offline_sec : ℚ) ∧ ¬ age ≥ (stale_sec : ℚ))) := by
  unfold classify
  split_ifs with h1 h2 <;> refine ⟨?_, ?_, ?_⟩ <;> simp_all

/-- Modelled from the spec (§4.7 transition table, amended description for
panels): emit `<entity>_offline` exactly on transitions to offline,
`<entity>_online` exactly on transitions from offline or stale to online,
nothing on transitions into stale; store the new state on any transition. -/
def spec_router_step (ep : EventsPolicyCfg) (now ts : ℚ)
    (stored : Option String) (sn : String) : Option DbEvent × Option String :=
  let prev := stored.getD "online"
  let nw := classify (now - ts) ep.router_stale_sec ep.router_offline_sec
  ((if nw = "offline" ∧ prev ≠ "offline" then
      some ⟨sn, "router_offline", prev ++ " → " ++ nw, none, none⟩
    else if nw = "online" ∧ (prev = "offline" ∨ prev = "stale") then
      some ⟨sn, "router_online", prev ++ " → " ++ nw, none, none⟩
    else none),
   if nw ≠ prev then some nw else stored)

/-- Modelled from the spec (§4.7, amended): the panel analogue, with
equip_type="pcc", the panel id, and the `panel_id=<id> ` description prefix
the code actually writes. -/
def spec_panel_step (ep : EventsPolicyCfg) (now ts : ℚ)
    (stored : Option String) (sn : String) (pid : ℤ) :
    Option DbEvent × Option String :=
  let prev := stored.getD "online"
  let nw := classify (now - ts) ep.panel_stale_sec ep.panel_offline_sec
  ((if nw = "offline" ∧ prev ≠ "offline" then
      some ⟨sn, "panel_offline",
        "panel_id=" ++ toString pid ++ " " ++ prev ++ " → " ++ nw,
        some "pcc", some pid⟩
    else if nw = "online" ∧ (prev = "offline" ∨ prev = "stale") then
      some ⟨sn, "panel_online",
        "panel_id=" ++ toString pid ++ " " ++ prev ++ " → " ++ nw,
        some "pcc", some pid⟩
    else none),
   if nw ≠ prev then some nw else stored)

/-- C8 (amended): on every watchdog sweep, each entity is classified offline
when age ≥ its offline threshold, else stale when age ≥ its stale threshold,
else online, with the previous state defaulting to online; an event is
emitted exactly on transitions to offline (<entity>_offline) and on
transitions from offline or stale to online (<entity>_online), none on
transitions into stale; a router event's description is "<prev> → <new>",
while a panel event's description is "panel_id=<id> <prev> → <new>"
(containing "<prev> → <new>" after the panel-id prefix) and the panel event
carries equip_type="pcc" and the panel_id. -/
theorem C8_watchdog_transitions (ep : EventsPolicyCfg) (now ts : ℚ)
    (stored : Option String) (sn : String) (pid : ℤ) :
    router_check_step ep now ts stored sn = spec_router_step ep now ts stored sn
    ∧ panel_check_step ep now ts stored sn pid
        = spec_panel_step ep now ts stored sn pid
    ∧ ((classify (now - ts) ep.router_stale_sec ep.router_offline_sec = "offline"
          ↔ now - ts ≥ (ep.router_offline_sec : ℚ))
        ∧ (classify (now - ts) ep.router_stale_sec ep.router_offline_sec = "stale"
          ↔ (¬ now - ts ≥ (ep.router_offline_sec : ℚ)
              ∧ now - ts ≥ (ep.router_stale_sec : ℚ)))
        ∧ (classify (now - ts) ep.router_stale_sec ep.router_offline_sec = "online"
          ↔ (¬ now - ts ≥ (ep.router_offline_sec : ℚ)
              ∧ ¬ now - ts ≥ (ep.router_stale_sec : ℚ)))) := by
  refine ⟨?_, ?_, classify_cases _ _ _⟩
  · simp only [router_check_step, spec_router_step, emit_router_event]
    generalize stored.getD "online" = prev
    generalize classify (now - ts) ep.router_stale_sec ep.router_offline_sec = nw
    by_cases hC : nw = prev
    · subst hC
      have h2 : ¬ (nw = "online" ∧ (nw = "offline" ∨ nw = "stale")) := by
        rintro ⟨ha, hb | hb⟩ <;> rw [ha] at hb <;> exact absurd hb (by decide)
      simp [h2]
    · have hC' : nw ≠ prev := hC
      by_cases hD : nw = "offline"
      · have hpo : prev ≠ "offline" := fun hp => hC (hD.trans hp.symm)
        have hop : ¬ ("offline" = prev) := by
          rw [hD] at hC'
          exact hC'
        simp [hC', hD, hpo, hop]
      · by_cases hE : nw = "online" ∧ (prev = "offline" ∨ prev = "stale")
        · have hon : ¬ ("online" = prev) := by
            rw [hE.1] at hC'
            exact hC'
          simp [hC', hD, hE, hon]
        · simp [hC', hD, hE]
  · simp only [panel_check_step, spec_panel_step, emit_panel_event]
    generalize stored.getD "online" = prev
    generalize classify (now - ts) ep.panel_stale_sec ep.panel_offline_sec = nw
    by_cases hC : nw = prev
    · subst hC
      have h2 : ¬ (nw = "online" ∧ (nw = "offline" ∨ nw = "stale")) := by
        rintro ⟨ha, hb | hb⟩ <;> rw [ha] at hb <;> exact absurd hb (by decide)
      simp [h2]
    · have hC' : nw ≠ prev := hC
      by_cases hD : nw = "offline"
      · have hpo : prev ≠ "offline" := fun hp => hC (hD.trans hp.symm)
        have hop : ¬ ("offline" = prev) := by
          rw [hD] at hC'
          exact hC'
        simp [hC', hD, hpo, hop]
      · by_cases hE : nw = "online" ∧ (prev = "offline" ∨ prev = "stale")
        · have hon : ¬ ("online" = prev) := by
            rw [hE.1] at hC'
            exact hC'
          simp [hC', hD, hE, hon]
        · simp [hC', hD, hE]

/-- Counterexample to C8 as stated: a panel crossing the offline threshold
(age 400 ≥ 300, default policy) emits an event whose description is
"panel_id=1 online → offline", not the claimed "<prev> → <new>" form
"online → offline" (src/watchdog.py line 113). -/
theorem C8_counterexample :
    (panel_check_step ⟨120, 300, 120, 300⟩ 400 0 none "R1" 1).1.map
        DbEvent.description
      = some "panel_id=1 online → offline"
    ∧ "panel_id=1 online → offline" ≠ "online → offline" := by
  constructor
  · have hoff : ((400 : ℚ) - 0 ≥ ((300 : ℤ) : ℚ)) := by norm_num
    simp only [panel_check_step, classify, emit_panel_event, Option.getD_none,
      if_pos hoff]
    rw [if_pos (show ("offline" : String) ≠ "online" by decide)]
    decide
  · decide

/-! ## src/db.py — retention cleanup loops

`cleanup_gps_raw`, `cleanup_history` and `cleanup_events` (src/db.py lines
373-436) share one loop shape: repeat a bounded `DELETE ... LIMIT batch`,
accumulate the reported row count `n`, and stop as soon as `n < batch`.  The
store is modelled by the number `rows` of rows currently eligible for
deletion; a `DELETE ... LIMIT batch` round removes `min batch rows` of them
(no concurrent inserts).  The unbounded `while True` is modelled with
explicit fuel: `none` means the loop was still running when the fuel ran
out, so termination is the statement that some finite fuel returns `some`. -/

/-- One DELETE round: rows reported deleted by `DELETE ... LIMIT batch`. -/
def cleanup_round (batch rows : ℕ) : ℕ :=
  min batch rows

/-- The cleanup loop of src/db.py: returns the total and the per-round
counts, or `none` if `fuel` iterations did not reach the exit condition. -/
def cleanup_loop (batch : ℕ) : ℕ → ℕ → Option (ℕ × List ℕ)
  | 0, _ => none
  | fuel + 1, rows =>
    if cleanup_round batch rows < batch then
      some (cleanup_round batch rows, [cleanup_round batch rows])
    else
      match cleanup_loop batch fuel (rows - cleanup_round batch rows) with
      | none => none
      | some (total, rounds) =>
        some (cleanup_round batch rows + total, cleanup_round batch rows :: rounds)

/-- Embeds `cleanup_gps_raw` (src/db.py lines 373-392); the age filter is
abstracted into `rows`, the current number of eligible rows. -/
def cleanup_gps_raw (batch fuel rows : ℕ) : Option (ℕ × List ℕ) :=
  cleanup_loop batch fuel rows

/-- Embeds `cleanup_history` (src/db.py lines 395-414), same loop shape. -/
def cleanup_history (batch fuel rows : ℕ) : Option (ℕ × List ℕ) :=
  cleanup_loop batch fuel rows

/-- Embeds `cleanup_events` (src/db.py lines 417-436), same loop shape. -/
def cleanup_events (batch fuel rows : ℕ) : Option (ℕ × List ℕ) :=
  cleanup_loop batch fuel rows

theorem cleanup_loop_terminates (batch : ℕ) (hb : 1 ≤ batch) :
    ∀ (rows fuel : ℕ), rows < fuel →
      ∃ rounds : List ℕ,
        cleanup_loop batch fuel rows = some (rows, rounds)
        ∧ rounds.sum = rows
        ∧ (∀ n ∈ rounds, n ≤ batch)
        ∧ (∀ n ∈ rounds.dropLast, n = batch) := by
  intro rows
  induction rows using Nat.strong_induction_on with
  | _ rows ih =>
    intro fuel hfuel
    rcases fuel with _ | fuel
    · omega
    · by_cases hsmall : rows < batch
      · have hmin : cleanup_round batch rows = rows := by
          unfold cleanup_round
          omega
        refine ⟨[rows], ?_, by simp, by simp; omega, by simp⟩
        unfold cleanup_loop
        rw [hmin, if_pos hsmall]
      · have hmin : cleanup_round batch rows = batch := by
          unfold cleanup_round
          omega
        obtain ⟨rounds, hres, hsum, hle, hfull⟩ :=
          ih (rows - batch) (by omega) fuel (by omega)
        refine ⟨batch :: rounds, ?_, ?_, ?_, ?_⟩
        · unfold cleanup_loop
          rw [hmin, if_neg (by omega), hres]
          have htot : batch + (rows - batch) = rows := by omega
          simp [htot]
        · simp [hsum]
          omega
        · intro n hn
          rcases List.mem_cons.mp hn with h | h
          · omega
          · exact hle n h
        · intro n hn
          rcases hrounds : rounds with _ | ⟨r0, rrest⟩
          · rw [hrounds] at hn
            simp at hn
          · rw [hrounds] at hn
            rw [List.dropLast_cons_of_ne_nil (by simp)] at hn
            rcases List.mem_cons.mp hn with h | h
            · exact h
            · apply hfull
              rw [hrounds]
              exact h

/-- C10: each retention cleanup function terminates for every batch ≥ 1 —
with fuel rows+1 it reaches the exit, every round deletes at most batch rows,
all rounds before the last delete exactly batch rows (the loop exits at the
first short round), and the returned total is the sum of the per-round
counts (here: all initially eligible rows); for batch = 0 the exit condition
`n < batch` can never hold and the loop never returns. -/
theorem C10_cleanup_terminates (batch rows fuel : ℕ) (hb : 1 ≤ batch) :
    (∃ rounds : List ℕ,
        cleanup_gps_raw batch (rows + 1) rows = some (rows, rounds)
        ∧ cleanup_history batch (rows + 1) rows = some (rows, rounds)
        ∧ cleanup_events batch (rows + 1) rows = some (rows, rounds)
        ∧ rounds.sum = rows
        ∧ (∀ n ∈ rounds, n ≤ batch)
        ∧ (∀ n ∈ rounds.dropLast, n = batch))
    ∧ ¬ cleanup_round 0 rows < 0
    ∧ cleanup_gps_raw 0 fuel rows = none := by
  refine ⟨?_, by omega, ?_⟩
  · obtain ⟨rounds, hres, hsum, hle, hfull⟩ :=
      cleanup_loop_terminates batch hb rows (rows + 1) (by omega)
    exact ⟨rounds, hres, hres, hres, hsum, hle, hfull⟩
  · induction fuel generalizing rows with
    | zero => rfl
    | succ fuel ih =>
      unfold cleanup_gps_raw at ih ⊢
      unfold cleanup_loop
      rw [if_neg (by simp [cleanup_round])]
      rw [show cleanup_round 0 rows = 0 by simp [cleanup_round]]
      rw [ih (rows - 0)]

/-- Witness for C10 at a concrete input: batch 2 over 5 eligible rows —
rounds 2, 2, 1, total 5; and with batch 0 the loop exhausts any fuel. -/
theorem C10_cleanup_terminates_witness :
    (∃ rounds : List ℕ,
        cleanup_gps_raw 2 6 5 = some (5, rounds)
        ∧ cleanup_history 2 6 5 = some (5, rounds)
        ∧ cleanup_events 2 6 5 = some (5, rounds)
        ∧ rounds.sum = 5
        ∧ (∀ n ∈ rounds, n ≤ 2)
        ∧ (∀ n ∈ rounds.dropLast, n = 2))
    ∧ ¬ cleanup_round 0 5 < 0
    ∧ cleanup_gps_raw 0 7 5 = none :=
  C10_cleanup_terminates 2 5 7 (by decide)

end DBMqtt
